import Mathlib

/-!
Verification of the whitecat board driver (board.go) against its
natural-language specification.  The Go source is shallowly embedded:
lines are lists of characters, byte streams are lists of naturals,
and each Go function becomes an executable Lean definition that
mirrors the source control flow.
-/

/-! ## Character and substring helpers used by the regex models -/

/-- Whitespace class of the RE2 escape for whitespace: tab, newline,
form feed, carriage return, space. -/
def wsChar (c : Char) : Bool :=
  c = '\t' || c = '\n' || c = '\x0c' || c = '\r' || c = ' '

/-- True when the character list holds no newline character. -/
def noNewline (l : List Char) : Bool :=
  !(l.contains '\n')

/-- Decides whether the first list is a leading segment of the second. -/
def startsWithL : List Char → List Char → Bool
  | [], _ => true
  | _ :: _, [] => false
  | p :: ps, c :: cs => p = c && startsWithL ps cs

/-- Decides whether the pattern occurs contiguously somewhere in the list. -/
def containsSub (pat : List Char) : List Char → Bool
  | [] => startsWithL pat []
  | c :: rest => startsWithL pat (c :: rest) || containsSub pat rest

/-! ## Reset-cause classification (inspector, board.go lines 77-92)

The Go code tests the accumulated line against three Go regular
expressions.  Each is anchored on both sides, starts with the literal
text rst: followed by a dot-star, then a fixed signature text
(parentheses around SW_CPU_RESET and DEEPSLEEP_RESET are capture
groups, those around POWERON_RESET are escaped literals), then
dot-stars to the end.  Since a dot never matches a newline, a line
matches exactly when it has no newline, starts with rst:, and the
signature occurs at or after position 4. -/

/-- Signature text required by the power-on-reset pattern. -/
def porSig : List Char := "(POWERON_RESET),boot:".toList

/-- Signature text required by the software-reset pattern; the
parentheses in the source pattern are a capture group, so they are not
part of the matched text. -/
def swSig : List Char := "SW_CPU_RESET,boot:".toList

/-- Signature text required by the deep-sleep-reset pattern; note the
source pattern has no colon after boot here. -/
def dsSig : List Char := "DEEPSLEEP_RESET,boot".toList

/-- Matching a reset-cause pattern: anchored, prefix rst:, then the
signature anywhere in the remainder, no newline anywhere. -/
def resetSigMatch (sig : List Char) (l : List Char) : Bool :=
  noNewline l && startsWithL "rst:".toList l && containsSub sig (l.drop 4)

/-! ## Runtime-error classification (inspector, board.go lines 94-116) -/

/-- Scans a run of characters satisfying p followed by a colon; returns
the run and the rest after the colon.  This is the unique way a
star-of-class group followed by a literal colon can match, because no
character of either class is a colon. -/
def scanRun (p : Char → Bool) : List Char → Option (List Char × List Char)
  | [] => none
  | c :: rest =>
    if p c then (scanRun p rest).map (fun pr => (c :: pr.1, pr.2))
    else if c = ':' then some ([], rest) else none

/-- Structured runtime-error pattern: letters, colon, digits, colon,
one whitespace character, digits, colon, arbitrary non-newline rest.
Returns the four capture groups when the line matches. -/
def structuredErrMatch (l : List Char) :
    Option (List Char × List Char × List Char × List Char) :=
  match scanRun Char.isAlpha l with
  | none => none
  | some (a, r1) =>
    match scanRun Char.isDigit r1 with
    | none => none
    | some (d1, r2) =>
      match r2 with
      | [] => none
      | w :: r3 =>
        if wsChar w then
          match scanRun Char.isDigit r3 with
          | none => none
          | some (d2, r4) =>
            if noNewline r4 then some (a, d1, d2, r4) else none
        else none

/-- Loose runtime-error pattern: letters, colon, digits, colon,
whitespace-star, arbitrary non-newline rest.  The greedy
whitespace-star takes the maximal whitespace run, so the message
capture is the remainder after it; shrinking the run can only add
whitespace (possibly a newline) in front of the message, never remove
a newline from it, hence the maximal run decides matching. -/
def looseErrMatch (l : List Char) :
    Option (List Char × List Char × List Char) :=
  match scanRun Char.isAlpha l with
  | none => none
  | some (a, r1) =>
    match scanRun Char.isDigit r1 with
    | none => none
    | some (d, r2) =>
      let m := r2.dropWhile wsChar
      if noNewline m then some (a, d, m) else none

/-- Payload built for a structured runtime-error event, mirroring the
string concatenation in the source. -/
def infoStructured (a d1 d2 m : List Char) : String :=
  "\"where\": \"" ++ a.asString ++ "\", " ++
  "\"line\": \"" ++ d1.asString ++ "\", " ++
  "\"exception\": \"" ++ d2.asString ++ "\", " ++
  "\"message\": \"" ++ m.asString ++ "\""

/-- Payload built for a loose runtime-error event, with the exception
field fixed to zero, mirroring the source. -/
def infoLoose (a d m : List Char) : String :=
  "\"where\": \"" ++ a.asString ++ "\", " ++
  "\"line\": \"" ++ d.asString ++ "\", " ++
  "\"exception\": \"0\", " ++
  "\"message\": \"" ++ m.asString ++ "\""

/-- The notifications the inspector emits for one accumulated line, in
source order: the three reset-cause tests run independently when boot
notifications are not suppressed, then the structured runtime-error
test and, only if it fails, the loose one. -/
def classifyLine (suppress : Bool) (l : List Char) : List (String × String) :=
  (if !suppress then
    (if resetSigMatch porSig l then [("boardPowerOnReset", "")] else []) ++
    (if resetSigMatch swSig l then [("boardSoftwareReset", "")] else []) ++
    (if resetSigMatch dsSig l then [("boardDeepSleepReset", "")] else [])
  else []) ++
  (match structuredErrMatch l with
   | some (a, d1, d2, m) => [("boardRuntimeError", infoStructured a d1 d2 m)]
   | none =>
     match looseErrMatch l with
     | some (a, d, m) => [("boardRuntimeError", infoLoose a d m)]
     | none => [])

/-- Recognises a reset-cause notification by its event name. -/
def isResetEv (e : String × String) : Bool :=
  e.1 = "boardPowerOnReset" || e.1 = "boardSoftwareReset" ||
  e.1 = "boardDeepSleepReset"

/-- Recognises a runtime-error notification by its event name. -/
def isErrEv (e : String × String) : Bool :=
  e.1 = "boardRuntimeError"

/-! ## Inspector byte loop (board.go lines 63-129) -/

/-- State of the inspector loop: the accumulated line and the
notifications emitted so far. -/
structure InspSt where
  line : List Char
  events : List (String × String)

/-- Runs the inspector over a list of received bytes (embedded as
characters).  On newline the accumulated line is classified and reset;
a carriage return is skipped by the accumulator; every other byte is
appended to it.  Every byte, whatever its value, is forwarded to the
queue, returned here as the second component in arrival order. -/
def inspRun (s : Bool) (st : InspSt) : List Char → InspSt × List Char
  | [] => (st, [])
  | b :: rest =>
    let st' :=
      if b = '\n' then { line := [], events := st.events ++ classifyLine s st.line }
      else if b = '\r' then st
      else { st with line := st.line ++ [b] }
    let r := inspRun s st' rest
    (r.1, b :: r.2)

/-! ## Boot banners (board.go lines 211-226) -/

/-- Banner reported while the board is booting. -/
def bootingBanner : String := "Lua RTOS-booting-ESP32"

/-- Banner reported when boot scripts were aborted. -/
def abortedBanner : String := "Lua RTOS-boot-scripts-aborted-ESP32"

/-- Banner reported when the board is running. -/
def runningBanner : String := "Lua RTOS-running-ESP32"

/-- Reply test used by the booting probe: any of the three banners. -/
def isBootingLine (l : String) : Bool :=
  l = bootingBanner || l = abortedBanner || l = runningBanner

/-- Reply test used by the running probe: only the running banner. -/
def isRunningLine (l : String) : Bool :=
  l = runningBanner

/-! ## Command protocol (board.go lines 229-270)

The host writes the command and a line terminator (a transport side
effect outside the model), then reads the echo line and, on success,
response lines until a prompt line.  The model takes the device's
reply lines as a list; an empty list at a read point means the host
blocks forever, embedded as a none result. -/

/-- Prompt test on the characters of a line: the source pattern is
anchored, a slash, dot-star, a greater-than sign, dot-star; since dots
never match a newline, a line matches exactly when it has no newline,
starts with a slash and has a greater-than sign somewhere after it. -/
def isPromptChars (l : List Char) : Bool :=
  noNewline l &&
    (match l with
     | [] => false
     | c :: rest => c = '/' && rest.contains '>')

/-- Prompt test on a string line. -/
def isPromptS (s : String) : Bool := isPromptChars s.data

/-- One accumulation step of the response: the source appends a line
separator only when the accumulator is non-empty, then the line. -/
def respAppend (resp l : String) : String :=
  (if resp = "" then resp else resp ++ "\r\n") ++ l

/-- Reads reply lines until a prompt line, which is consumed and not
accumulated; returns the accumulated response and the unread lines,
or none when the lines run out (the host would block). -/
def sendRespLoop : List String → String → Option (String × List String)
  | [], _ => none
  | ln :: rest, resp =>
    if isPromptS ln then some (resp, rest)
    else sendRespLoop rest (respAppend resp ln)

/-- Sends a command: reads the echo line; on mismatch returns the
empty response at once with all later lines unread; on match collects
the response until a prompt. -/
def sendCommandRun (cmd : String) : List String → Option (String × List String)
  | [] => none
  | echo :: rest => if echo = cmd then sendRespLoop rest "" else some ("", rest)

/-- Join of lines by the line terminator, the reading of the
specification text for the response assembly. -/
def crlfJoin : List String → String
  | [] => ""
  | [l] => l
  | l :: l2 :: rest => l ++ "\r\n" ++ crlfJoin (l2 :: rest)

/-! ## File transfer protocol (board.go lines 349-426) -/

/-- Command sent to push a file to the device. -/
def writeCommand (path : String) : String := "io.receive(\"" ++ path ++ "\")"

/-- Command sent to pull a file from the device. -/
def readCommand (path : String) : String := "io.send(\"" ++ path ++ "\")"

/-- Length of the next chunk computed by writeFile: the chunk size when
at least that many bytes remain past the cursor, else the remaining
byte count, else zero when the cursor is past the end. -/
def sendLen (cs bufLen outIndex : Nat) : Nat :=
  if outIndex < bufLen then
    (if outIndex + cs - 1 < bufLen then cs else bufLen - outIndex)
  else 0

/-- Sequence of payload chunks writeFile sends from the given cursor:
while the computed length is non-zero, the slice of that length at the
cursor is sent and the cursor advances by exactly that length; the
zero length stops the transfer. -/
def sentChunks (cs : Nat) (buffer : List Nat) (outIndex : Nat) :
    List (List Nat) :=
  if h : sendLen cs buffer.length outIndex = 0 then []
  else
    (buffer.drop outIndex).take (sendLen cs buffer.length outIndex) ::
      sentChunks cs buffer (outIndex + sendLen cs buffer.length outIndex)
termination_by buffer.length - outIndex
decreasing_by
  simp only [sendLen] at h ⊢
  split at h
  next hlt =>
    split at h
    next hfull =>
      simp only [if_pos hlt, if_pos hfull]
      omega
    next hfull =>
      simp only [if_pos hlt, if_neg hfull]
      omega
  next hlt =>
    exact absurd rfl h

/-- The chunk loop of writeFile driven by the device's reply lines:
lines other than the single-letter ready marker are ignored, each
ready marker triggers one chunk (or the terminating zero length), and
an exhausted line stream means the host blocks, embedded as none.
Returns the payload chunks sent, in order. -/
def writeLoop (cs : Nat) (buffer : List Nat) (outIndex : Nat) :
    List String → Option (List (List Nat))
  | [] => none
  | ln :: rest =>
    if ln = "C" then
      if sendLen cs buffer.length outIndex = 0 then some []
      else
        (writeLoop cs buffer (outIndex + sendLen cs buffer.length outIndex)
            rest).map
          (fun cks =>
            (buffer.drop outIndex).take (sendLen cs buffer.length outIndex) ::
              cks)
    else writeLoop cs buffer outIndex rest

/-- writeFile against a device reply-line stream: the first line is the
echo; on mismatch the transfer is skipped entirely (no chunk sent),
otherwise the chunk loop runs. -/
def writeFileRun (path : String) (cs : Nat) (buffer : List Nat)
    (lines : List String) : Option (List (List Nat)) :=
  match lines with
  | [] => none
  | echo :: rest =>
    if echo = writeCommand path then writeLoop cs buffer 0 rest else some []

/-- The chunk loop of readFile over the byte stream the device sends:
read one length byte; zero ends the transfer; otherwise read exactly
that many payload bytes and continue.  Returns the assembled bytes and
the unread rest of the stream, or none when the stream runs out
mid-transfer (the host would block). -/
def readChunks : List Nat → Option (List Nat × List Nat)
  | [] => none
  | len :: rest =>
    if len = 0 then some ([], rest)
    else if rest.length < len then none
    else
      (readChunks (rest.drop len)).map
        (fun pr => (rest.take len ++ pr.1, pr.2))
termination_by l => l.length
decreasing_by
  simp only [List.length_drop, List.length_cons]
  omega

/-- readFile against a device: the echo line is checked first; on
mismatch the call returns nil at once with the stream untouched; on
match the chunk loop runs and the queue is drained afterwards.  The
outer option is none when the host blocks; the inner option is the
returned value (none embeds the nil return). -/
def readFileRun (path echo : String) (stream : List Nat) :
    Option (Option (List Nat) × List Nat) :=
  if echo = readCommand path then
    (readChunks stream).map (fun pr => (some pr.1, []))
  else some (none, stream)

/-- Wire encoding of the chunks a cooperating device replays on a pull,
per the wire contract of the specification: each chunk as one length
byte followed by its payload bytes, then a zero length byte. -/
def encodeChunks (chunks : List (List Nat)) : List Nat :=
  (chunks.map (fun c => c.length :: c)).flatten ++ [0]

/-! ## Boot state machine and facade (board.go lines 131-163, 272-323) -/

/-- One polling loop of reset: each probe reads one reply line; the
loop ends when the test accepts a line, returning the unread lines;
an exhausted stream means the loop never ends, embedded as none. -/
def pollUntil (test : String → Bool) : List String → Option (List String)
  | [] => none
  | l :: rest => if test l then some rest else pollUntil test rest

/-- Non-overlapping left-to-right replacement, fuel-recursive so that
it reduces in the kernel; every step consumes at least one character,
so fuel equal to the input length always suffices. -/
def replaceSubGo (pat repl : List Char) : Nat → List Char → List Char
  | _, [] => []
  | 0, l => l
  | fuel + 1, c :: rest =>
    if pat ≠ [] && startsWithL pat (c :: rest) then
      repl ++ replaceSubGo pat repl fuel ((c :: rest).drop pat.length)
    else c :: replaceSubGo pat repl fuel rest

/-- Non-overlapping left-to-right replacement of every occurrence of a
pattern, as the replace-all string primitive used by getInfo. -/
def replaceSub (pat repl : List Char) (l : List Char) : List Char :=
  replaceSubGo pat repl l.length l

/-- The command getInfo sends. -/
def getInfoCommand : String := "dofile(\"/_info.lua\")"

/-- getInfo: sends the info command and normalizes trailing separators
by replacing comma-brace and comma-bracket pairs in the response. -/
def getInfoRun (lines : List String) : Option String :=
  (sendCommandRun getInfoCommand lines).map
    (fun pr =>
      (replaceSub ",]".toList "]".toList
        (replaceSub ",\x7d".toList "\x7d".toList pr.1.data)).asString)

/-- reset: toggles flow control (a transport side effect outside the
model), polls until a booting banner, polls until the running banner,
drains the queue, pushes the info script when the local prerequisite
file was readable, then reads the device info; every terminating path
ends with a true result carrying the info string. -/
def resetModel (probe : List String) (prereq : Option (List Nat))
    (wfLines : List String) (infoLines : List String) :
    Option (Bool × String) :=
  match pollUntil isBootingLine probe with
  | none => none
  | some r1 =>
    match pollUntil isRunningLine r1 with
    | none => none
    | some _ =>
      match
        (match prereq with
         | none => some []
         | some buf => writeFileRun "/_info.lua" 255 buf wfLines) with
      | none => none
      | some _ =>
        match getInfoRun infoLines with
        | none => none
        | some info => some (true, info)

/-- attach: when the transport fails to open, fail at once without
installing a board or notifying; otherwise run reset and, on its true
result, install the board (carrying the info string) as the active one
and emit the attached event; a false reset result would fail without
installing.  The outer option is none when reset never terminates. -/
def attachModel (openOk : Bool) (probe : List String)
    (prereq : Option (List Nat)) (wfLines infoLines : List String)
    (prev : Option String) : Option (Bool × Option String × List String) :=
  if openOk then
    match resetModel probe prereq wfLines infoLines with
    | none => none
    | some (b, info) =>
      if b then some (true, some info, ["boardAttached"])
      else some (false, prev, [])
  else some (false, prev, [])

/-! ## Directory listing (board.go lines 325-347) -/

/-- Splitting a character list at every occurrence of a separator
character, the single-character case of the string split primitive;
the empty input yields one empty field. -/
def splitOnChar (sep : Char) : List Char → List (List Char)
  | [] => [[]]
  | c :: rest =>
    let r := splitOnChar sep rest
    if c = sep then [] :: r
    else
      match r with
      | [] => [[c]]
      | h :: t => (c :: h) :: t

/-- The object text built for one well-formed listing line, mirroring
the string concatenation in the source. -/
def dirObj (e0 e1 e2 e3 : List Char) : List Char :=
  "\x7b\"type\": \"".toList ++ e0 ++ "\",\"size\": \"".toList ++ e1 ++
    "\",\"date\": \"".toList ++ e2 ++ "\",\"name\": \"".toList ++ e3 ++
    "\"\x7d".toList

/-- The line loop of getDirContent: each response line is stripped of
carriage returns and split at tabs; exactly four fields append one
object (comma-separated after the first); any other field count leaves
the accumulated content unchanged. -/
def dirFold : List (List Char) → List Char → List Char
  | [], content => content
  | line :: rest, content =>
    match splitOnChar '\t' (line.filter (fun c => c ≠ '\r')) with
    | [e0, e1, e2, e3] =>
      dirFold rest
        ((if content = [] then content else content ++ [',']) ++
          dirObj e0 e1 e2 e3)
    | _ => dirFold rest content

/-- getDirContent applied to the already-collected response body:
split into lines at newlines, fold, and wrap in brackets. -/
def getDirContentRun (response : List Char) : List Char :=
  '[' :: (dirFold (splitOnChar '\n' response) [] ++ [']'])

/-! ## Detach (board.go lines 165-172) -/

/-- Process-wide active board reference after a detach call: the
source closes the port when the receiver is non-nil and then
unconditionally clears the global connectedBoard reference. -/
def detachRun (_s : Option String) : Option String := none

/-! ## Theorems -/

/-- C10: the booting probe accepts exactly the three distinct banner
lines, one of which is the running banner itself, while the running
probe accepts only the running banner. -/
theorem booting_probe_accepts_three_lines :
    (∀ l, isBootingLine l = true ↔
      (l = bootingBanner ∨ l = abortedBanner ∨ l = runningBanner)) ∧
    isBootingLine runningBanner = true ∧
    (bootingBanner ≠ abortedBanner ∧ bootingBanner ≠ runningBanner ∧
      abortedBanner ≠ runningBanner) ∧
    (∀ l, isRunningLine l = true ↔ l = runningBanner) := by
  refine ⟨fun l => ?_, by decide, by decide, fun l => ?_⟩
  · simp [isBootingLine, or_assoc]
  · simp [isRunningLine]

/-- C1 counterexample: the three reset-cause patterns are not mutually
exclusive, so a single line can emit two reset events; on the line
below both the power-on and the software reset tests fire, refuting
that exactly one of no-event, power-on, software, deep-sleep fires. -/
theorem classifier_two_reset_events :
    (classifyLine false
        "rst:(POWERON_RESET),boot:SW_CPU_RESET,boot:".toList).filter isResetEv =
      [("boardPowerOnReset", ""), ("boardSoftwareReset", "")] ∧
    ¬((classifyLine false
          "rst:(POWERON_RESET),boot:SW_CPU_RESET,boot:".toList).filter isResetEv = [] ∨
      (classifyLine false
          "rst:(POWERON_RESET),boot:SW_CPU_RESET,boot:".toList).filter isResetEv =
        [("boardPowerOnReset", "")] ∨
      (classifyLine false
          "rst:(POWERON_RESET),boot:SW_CPU_RESET,boot:".toList).filter isResetEv =
        [("boardSoftwareReset", "")] ∨
      (classifyLine false
          "rst:(POWERON_RESET),boot:SW_CPU_RESET,boot:".toList).filter isResetEv =
        [("boardDeepSleepReset", "")]) := by
  constructor
  · decide
  · decide

/-- C1 amended: the error tests emit exactly one of no event,
structured runtime error, loose runtime error; the reset-cause tests
fire independently per matching signature (zero when suppressed), so
the number of reset events equals the number of matching signatures;
and every emitted event belongs to exactly one of the two families,
reset events first. -/
theorem classifier_family_counts :
    ∀ (s : Bool) (l : List Char),
      ((classifyLine s l).filter isErrEv).length =
        (if (structuredErrMatch l).isSome || (looseErrMatch l).isSome
          then 1 else 0) ∧
      ((classifyLine s l).filter isResetEv).length =
        (if s then 0 else
          (resetSigMatch porSig l).toNat + (resetSigMatch swSig l).toNat +
            (resetSigMatch dsSig l).toNat) ∧
      classifyLine s l =
        (classifyLine s l).filter isResetEv ++ (classifyLine s l).filter isErrEv := by
  intro s l
  cases s <;>
    cases h1 : resetSigMatch porSig l <;>
    cases h2 : resetSigMatch swSig l <;>
    cases h3 : resetSigMatch dsSig l <;>
    cases h4 : structuredErrMatch l <;>
    cases h5 : looseErrMatch l <;>
    simp [classifyLine, h1, h2, h3, h4, h5, isResetEv, isErrEv]

/-- C6: every byte the inspector reads is forwarded to the queue
exactly once in arrival order, and the line accumulator never holds a
carriage return when it held none before. -/
theorem inspector_forwards_every_byte :
    ∀ (s : Bool) (st : InspSt) (input : List Char),
      (inspRun s st input).2 = input ∧
      ('\r' ∉ st.line → '\r' ∉ (inspRun s st input).1.line) := by
  intro s st input
  induction input generalizing st with
  | nil => simp [inspRun]
  | cons b rest ih =>
    constructor
    · simpa [inspRun] using
        (ih (if b = '\n'
          then { line := [], events := st.events ++ classifyLine s st.line }
          else if b = '\r' then st else { st with line := st.line ++ [b] })).1
    · intro h
      simp only [inspRun]
      by_cases hn : b = '\n'
      · simpa [hn] using
          (ih { line := [], events := st.events ++ classifyLine s st.line }).2
            (by simp)
      · by_cases hr : b = '\r'
        · simpa [hn, hr] using (ih st).2 h
        · have hmem : '\r' ∉ st.line ++ [b] := by
            intro hc
            rcases List.mem_append.mp hc with hc | hc
            · exact h hc
            · simp at hc
              exact hr hc.symm
          simpa [hn, hr] using (ih { st with line := st.line ++ [b] }).2 hmem

/-- C6 witness: on a concrete input containing a carriage return the
queue reproduces the input and the final accumulator holds no
carriage return. -/
theorem inspector_forwards_witness :
    (inspRun false ⟨[], []⟩ "ab\rc\nd".toList).2 = "ab\rc\nd".toList ∧
      '\r' ∉ (inspRun false ⟨[], []⟩ "ab\rc\nd".toList).1.line :=
  ⟨(inspector_forwards_every_byte false ⟨[], []⟩ "ab\rc\nd".toList).1,
    (inspector_forwards_every_byte false ⟨[], []⟩ "ab\rc\nd".toList).2
      (by decide)⟩

/-- C8: detach always clears the active board reference, and any
sequence of one or more detach calls leaves it nil, the same as a
single call. -/
theorem detach_clears_and_idempotent :
    ∀ (s : Option String) (n : Nat),
      detachRun s = none ∧ detachRun^[n + 1] s = detachRun s := by
  intro s n
  refine ⟨rfl, ?_⟩
  induction n generalizing s with
  | zero => rfl
  | succ k ih =>
    rw [Function.iterate_succ_apply]
    exact ih (detachRun s)

/-- Helper: a non-zero computed chunk length implies the cursor is in
range, the length is positive, the chunk fits in the buffer, and the
length never exceeds the chunk size. -/
theorem sendLen_facts (cs L i : Nat) (h : sendLen cs L i ≠ 0) :
    i < L ∧ 0 < sendLen cs L i ∧ i + sendLen cs L i ≤ L ∧
      sendLen cs L i ≤ cs := by
  simp only [sendLen] at h ⊢
  split at h
  next hlt =>
    split at h
    next hfull =>
      simp only [if_pos hlt, if_pos hfull]
      omega
    next hfull =>
      simp only [if_pos hlt, if_neg hfull]
      omega
  next hlt => exact absurd rfl h

/-- Helper: with a positive chunk size and a cursor in range the
computed chunk length is non-zero. -/
theorem sendLen_pos (cs L i : Nat) (hcs : 0 < cs) (hi : i < L) :
    sendLen cs L i ≠ 0 := by
  simp only [sendLen, if_pos hi]
  split <;> omega

/-- Helper: the concatenation of the chunks sent from a cursor is the
buffer from that cursor on. -/
theorem sentChunks_flatten (cs : Nat) (hcs : 0 < cs) (buffer : List Nat) :
    ∀ i, (sentChunks cs buffer i).flatten = buffer.drop i := by
  have H : ∀ n i, buffer.length - i ≤ n →
      (sentChunks cs buffer i).flatten = buffer.drop i := by
    intro n
    induction n with
    | zero =>
      intro i hi
      have hge : buffer.length ≤ i := by omega
      have h0 : sendLen cs buffer.length i = 0 := by
        simp [sendLen, Nat.not_lt.mpr hge]
      rw [sentChunks, dif_pos h0]
      simp [List.drop_eq_nil_of_le hge]
    | succ k ih =>
      intro i hi
      by_cases h0 : sendLen cs buffer.length i = 0
      · have hge : buffer.length ≤ i := by
          by_contra hlt
          exact sendLen_pos cs buffer.length i hcs (Nat.not_le.mp hlt) h0
        rw [sentChunks, dif_pos h0]
        simp [List.drop_eq_nil_of_le hge]
      · obtain ⟨hlt, hpos, hle, _⟩ := sendLen_facts cs buffer.length i h0
        rw [sentChunks, dif_neg h0]
        rw [List.flatten_cons, ih (i + sendLen cs buffer.length i) (by omega)]
        rw [show buffer.drop (i + sendLen cs buffer.length i) =
              (buffer.drop i).drop (sendLen cs buffer.length i) by
            rw [List.drop_drop]]
        exact List.take_append_drop _ _
  exact fun i => H (buffer.length - i) i le_rfl

/-- Helper: the number of chunks sent from a cursor never exceeds the
number of remaining bytes, each chunk being non-empty. -/
theorem sentChunks_length_le (cs : Nat) (buffer : List Nat) :
    ∀ i, (sentChunks cs buffer i).length ≤ buffer.length - i := by
  have H : ∀ n i, buffer.length - i ≤ n →
      (sentChunks cs buffer i).length ≤ buffer.length - i := by
    intro n
    induction n with
    | zero =>
      intro i hi
      have h0 : sendLen cs buffer.length i = 0 := by
        simp only [sendLen]
        split
        next hlt => omega
        next => rfl
      rw [sentChunks, dif_pos h0]
      simp
    | succ k ih =>
      intro i hi
      by_cases h0 : sendLen cs buffer.length i = 0
      · rw [sentChunks, dif_pos h0]
        simp
      · obtain ⟨hlt, hpos, hle, _⟩ := sendLen_facts cs buffer.length i h0
        rw [sentChunks, dif_neg h0]
        have := ih (i + sendLen cs buffer.length i) (by omega)
        simp only [List.length_cons]
        omega
  exact fun i => H (buffer.length - i) i le_rfl

/-- Helper: every chunk sent is non-empty and no larger than the chunk
size. -/
theorem sentChunks_mem_bounds (cs : Nat) (buffer : List Nat) :
    ∀ i c, c ∈ sentChunks cs buffer i → 0 < c.length ∧ c.length ≤ cs := by
  have H : ∀ n i c, buffer.length - i ≤ n → c ∈ sentChunks cs buffer i →
      0 < c.length ∧ c.length ≤ cs := by
    intro n
    induction n with
    | zero =>
      intro i c hi hc
      have h0 : sendLen cs buffer.length i = 0 := by
        simp only [sendLen]
        split
        next hlt => omega
        next => rfl
      rw [sentChunks, dif_pos h0] at hc
      simp at hc
    | succ k ih =>
      intro i c hi hc
      by_cases h0 : sendLen cs buffer.length i = 0
      · rw [sentChunks, dif_pos h0] at hc
        simp at hc
      · obtain ⟨hlt, hpos, hle, hcs'⟩ := sendLen_facts cs buffer.length i h0
        rw [sentChunks, dif_neg h0] at hc
        rcases List.mem_cons.mp hc with hc | hc
        · subst hc
          rw [List.length_take, List.length_drop]
          constructor
          · omega
          · exact le_trans (Nat.min_le_left _ _) hcs'
        · exact ih (i + sendLen cs buffer.length i) c (by omega) hc
  exact fun i c hc => H (buffer.length - i) i c le_rfl hc

/-- Helper: with enough ready-marker lines the write chunk loop sends
exactly the chunk sequence. -/
theorem writeLoop_replicate (cs : Nat) (buffer : List Nat) :
    ∀ n i, (sentChunks cs buffer i).length < n →
      writeLoop cs buffer i (List.replicate n "C") =
        some (sentChunks cs buffer i) := by
  intro n
  induction n with
  | zero => intro i h; exact absurd h (Nat.not_lt_zero _)
  | succ k ih =>
    intro i h
    rw [List.replicate_succ]
    simp only [writeLoop, eq_self_iff_true, if_true]
    by_cases h0 : sendLen cs buffer.length i = 0
    · rw [if_pos h0]
      rw [sentChunks, dif_pos h0]
    · rw [if_neg h0]
      have hstep : sentChunks cs buffer i =
          (buffer.drop i).take (sendLen cs buffer.length i) ::
            sentChunks cs buffer (i + sendLen cs buffer.length i) := by
        rw [sentChunks, dif_neg h0]
      have hlen : (sentChunks cs buffer (i + sendLen cs buffer.length i)).length < k := by
        rw [hstep] at h
        simpa using Nat.lt_of_succ_lt_succ h
      rw [ih _ hlen, Option.map_some']
      rw [hstep]

/-- Helper: a cooperating device replaying stored non-empty chunks per
the wire contract hands back exactly their concatenation. -/
theorem readChunks_encode :
    ∀ chunks : List (List Nat), (∀ c ∈ chunks, 0 < c.length) →
      readChunks (encodeChunks chunks) = some (chunks.flatten, []) := by
  intro chunks
  induction chunks with
  | nil =>
    intro _
    simp [encodeChunks, readChunks]
  | cons c cks ih =>
    intro hband
    have hc : 0 < c.length := hband c (by simp)
    have he : encodeChunks (c :: cks) =
        c.length :: (c ++ encodeChunks cks) := by
      simp [encodeChunks]
    rw [he]
    simp only [readChunks]
    rw [if_neg (by omega)]
    rw [if_neg (by simp [List.length_append])]
    rw [List.take_left, List.drop_left]
    rw [ih (fun x hx => hband x (List.mem_cons_of_mem _ hx)), Option.map_some']
    simp

/-- C3: on each ready marker the chunk length sent is the minimum of
the chunk size and the remaining bytes (zero once the buffer is
exhausted), the cursor advances by exactly the sent length, and the
concatenation of the sent chunks is the whole buffer in order. -/
theorem writeFile_chunk_lengths (cs : Nat) (hcs : 0 < cs)
    (buffer : List Nat) :
    (∀ i, sendLen cs buffer.length i =
      if i < buffer.length then min cs (buffer.length - i) else 0) ∧
    (sentChunks cs buffer 0).flatten = buffer ∧
    (∀ i, sendLen cs buffer.length i ≠ 0 →
      sentChunks cs buffer i =
        (buffer.drop i).take (sendLen cs buffer.length i) ::
          sentChunks cs buffer (i + sendLen cs buffer.length i)) := by
  refine ⟨fun i => ?_, ?_, fun i h0 => ?_⟩
  · simp only [sendLen]
    split
    next hlt =>
      split
      next hfull => omega
      next hfull => omega
    next => rfl
  · simpa using sentChunks_flatten cs hcs buffer 0
  · rw [sentChunks, dif_neg h0]

/-- C3 witness: with chunk size two and a three-byte buffer the sent
chunks concatenate back to the buffer. -/
theorem writeFile_chunk_lengths_witness :
    0 < 2 ∧ (sentChunks 2 [1, 2, 3] 0).flatten = [1, 2, 3] :=
  ⟨by decide, (writeFile_chunk_lengths 2 (by decide) [1, 2, 3]).2.1⟩

/-- C2: for a buffer of each boundary length, pushing it with
writeFile against a cooperating device (correct echo, enough ready
markers) and pulling it back with readFile from that device replaying
the stored chunks per the wire contract yields exactly the original
byte sequence. -/
theorem writeFile_readFile_roundtrip (path : String) (B : List Nat)
    (hB : B.length ∈ ([0, 1, 254, 255, 256] : List Nat)) :
    ∃ chunks,
      writeFileRun path 255 B
          (writeCommand path :: List.replicate (B.length + 1) "C") =
        some chunks ∧
      readFileRun path (readCommand path) (encodeChunks chunks) =
        some (some B, []) := by
  clear hB
  refine ⟨sentChunks 255 B 0, ?_, ?_⟩
  · simp only [writeFileRun, eq_self_iff_true, if_true]
    exact writeLoop_replicate 255 B (B.length + 1) 0
      (Nat.lt_succ_of_le (by simpa using sentChunks_length_le 255 B 0))
  · simp only [readFileRun, eq_self_iff_true, if_true]
    rw [readChunks_encode (sentChunks 255 B 0)
      (fun c hc => (sentChunks_mem_bounds 255 B 0 c hc).1)]
    rw [Option.map_some']
    have := sentChunks_flatten 255 (by decide) B 0
    simp only [List.drop_zero] at this
    rw [this]

/-- C2 witness: the round trip at a concrete one-byte buffer. -/
theorem writeFile_readFile_roundtrip_witness :
    ([7] : List Nat).length ∈ ([0, 1, 254, 255, 256] : List Nat) ∧
    ∃ chunks,
      writeFileRun "f" 255 [7]
          (writeCommand "f" :: List.replicate (([7] : List Nat).length + 1) "C") =
        some chunks ∧
      readFileRun "f" (readCommand "f") (encodeChunks chunks) =
        some (some [7], []) :=
  ⟨by decide, writeFile_readFile_roundtrip "f" [7] (by decide)⟩

/-- C4: on an echo mismatch sendCommand returns the empty string at
once, leaving every later reply line unread, and readFile returns the
nil result with the byte stream untouched, so no chunk is
transferred. -/
theorem echo_mismatch_empty_result (cmd echo : String) (rest : List String)
    (path echo2 : String) (stream : List Nat)
    (h1 : echo ≠ cmd) (h2 : echo2 ≠ readCommand path) :
    sendCommandRun cmd (echo :: rest) = some ("", rest) ∧
    readFileRun path echo2 stream = some (none, stream) := by
  constructor
  · simp [sendCommandRun, h1]
  · simp [readFileRun, h2]

/-- C4 witness: concrete mismatched echoes. -/
theorem echo_mismatch_empty_result_witness :
    ("b" : String) ≠ "a" ∧ ("q" : String) ≠ readCommand "p" ∧
    sendCommandRun "a" ["b", "x"] = some ("", ["x"]) ∧
    readFileRun "p" "q" [1, 2] = some (none, [1, 2]) :=
  ⟨by decide, by decide,
    (echo_mismatch_empty_result "a" "b" ["x"] "p" "q" [1, 2]
      (by decide) (by decide)).1,
    (echo_mismatch_empty_result "a" "b" ["x"] "p" "q" [1, 2]
      (by decide) (by decide)).2⟩

/-- Helper: accumulating onto an empty response is just the line. -/
theorem respAppend_empty (l : String) : respAppend "" l = l := by
  simp [respAppend]

/-- Helper: accumulating onto a non-empty response inserts the line
terminator. -/
theorem respAppend_of_ne (resp l : String) (h : resp ≠ "") :
    respAppend resp l = resp ++ "\r\n" ++ l := by
  simp [respAppend, h]

/-- Helper: accumulating onto a non-empty response stays non-empty. -/
theorem respAppend_ne_empty (resp l : String) (h : resp ≠ "") :
    respAppend resp l ≠ "" := by
  rw [respAppend_of_ne resp l h]
  intro hc
  have h2 := congrArg String.data hc
  simp [String.data_append] at h2

/-- Helper: the join of lines absorbs a prepended head that already
carries its separator. -/
theorem crlfJoin_head (r x : String) (xs : List String) :
    crlfJoin ((r ++ "\r\n" ++ x) :: xs) = r ++ "\r\n" ++ crlfJoin (x :: xs) := by
  cases xs with
  | nil => rfl
  | cons y ys => simp [crlfJoin, String.append_assoc]

/-- Helper: from a non-empty accumulator the response loop joins every
line before the first prompt line after the accumulator. -/
theorem sendRespLoop_of_ne :
    ∀ (pre : List String) (resp p : String) (post : List String),
      (∀ x ∈ pre, isPromptS x = false) → isPromptS p = true → resp ≠ "" →
      sendRespLoop (pre ++ p :: post) resp =
        some (crlfJoin (resp :: pre), post) := by
  intro pre
  induction pre with
  | nil =>
    intro resp p post _ hp _
    simp [sendRespLoop, hp, crlfJoin]
  | cons x xs ih =>
    intro resp p post hpre hp hr
    have hx : isPromptS x = false := hpre x (List.mem_cons_self x xs)
    simp only [List.cons_append, sendRespLoop, hx, Bool.false_eq_true,
      if_false, List.append_eq]
    rw [respAppend_of_ne resp x hr]
    rw [ih (resp ++ "\r\n" ++ x) p post
      (fun y hy => hpre y (List.mem_cons_of_mem x hy)) hp
      (by
        have := respAppend_ne_empty resp x hr
        rwa [respAppend_of_ne resp x hr] at this)]
    rw [crlfJoin_head]
    rfl

/-- Helper: from the empty accumulator the response loop joins the
lines before the first prompt line, after dropping the leading empty
lines, which the accumulation absorbs. -/
theorem sendRespLoop_from_empty :
    ∀ (pre : List String) (p : String) (post : List String),
      (∀ x ∈ pre, isPromptS x = false) → isPromptS p = true →
      sendRespLoop (pre ++ p :: post) "" =
        some (crlfJoin (pre.dropWhile (fun x => x = "")), post) := by
  intro pre
  induction pre with
  | nil =>
    intro p post _ hp
    simp [sendRespLoop, hp, crlfJoin]
  | cons x xs ih =>
    intro p post hpre hp
    have hx : isPromptS x = false := hpre x (List.mem_cons_self x xs)
    simp only [List.cons_append, sendRespLoop, hx, Bool.false_eq_true,
      if_false, List.append_eq]
    by_cases hxe : x = ""
    · subst hxe
      rw [respAppend_empty]
      rw [ih p post (fun y hy => hpre y (List.mem_cons_of_mem _ hy)) hp]
      simp [List.dropWhile]
    · rw [respAppend_empty]
      rw [sendRespLoop_of_ne xs x p post
        (fun y hy => hpre y (List.mem_cons_of_mem x hy)) hp hxe]
      rw [List.dropWhile_cons_of_neg (by simpa using hxe)]

/-- C5 counterexample: with a matching echo and reply lines empty,
then x, then a prompt, the source returns x, while the lines before
the prompt joined by the line terminator would be the terminator
followed by x; so the result is not the plain join of the lines read
before the prompt. -/
theorem sendCommand_leading_empty_line :
    sendCommandRun "c" ["c", "", "x", "/a>b"] = some ("x", []) ∧
    (["", "x", "/a>b"].takeWhile (fun l => !isPromptS l)) = ["", "x"] ∧
    crlfJoin ["", "x"] ≠ "x" := by
  refine ⟨by decide, by decide, by decide⟩

/-- C5 amended: with a matching echo, sendCommand returns the reply
lines read before the first prompt line joined by the line terminator
after dropping the empty lines preceding the first non-empty line
(which the accumulation absorbs), and the prompt line is consumed and
never included in the result. -/
theorem sendCommand_response_join (cmd : String) (pre : List String)
    (p : String) (post : List String)
    (hpre : ∀ x ∈ pre, isPromptS x = false) (hp : isPromptS p = true) :
    sendCommandRun cmd (cmd :: pre ++ p :: post) =
      some (crlfJoin (pre.dropWhile (fun x => x = "")), post) := by
  show (if cmd = cmd then sendRespLoop (pre ++ p :: post) "" else
      some ("", pre ++ p :: post)) =
    some (crlfJoin (pre.dropWhile (fun x => x = "")), post)
  rw [if_pos rfl]
  exact sendRespLoop_from_empty pre p post hpre hp

/-- C5 witness: a concrete two-line response before the prompt. -/
theorem sendCommand_response_join_witness :
    (∀ x ∈ (["a", "b"] : List String), isPromptS x = false) ∧
    isPromptS "/x>y" = true ∧
    sendCommandRun "c" ("c" :: ["a", "b"] ++ "/x>y" :: ["z"]) =
      some (crlfJoin ((["a", "b"] : List String).dropWhile (fun x => x = "")),
        ["z"]) ∧
    crlfJoin ((["a", "b"] : List String).dropWhile (fun x => x = "")) =
      "a\r\nb" :=
  ⟨by decide, by decide,
    sendCommand_response_join "c" ["a", "b"] "/x>y" ["z"]
      (by decide) (by decide),
    by decide⟩

/-- Helper: a line whose tab split (after carriage-return removal) does
not have exactly four fields leaves the directory fold unchanged,
wherever it occurs. -/
theorem dirFold_skips_bad_line :
    ∀ (xs ys : List (List Char)) (bad content : List Char),
      (splitOnChar '\t' (bad.filter (fun c => c ≠ '\r'))).length ≠ 4 →
      dirFold (xs ++ bad :: ys) content = dirFold (xs ++ ys) content := by
  intro xs
  induction xs with
  | nil =>
    intro ys bad content hlen
    simp only [List.nil_append]
    rw [dirFold]
    split
    next e0 e1 e2 e3 heq =>
      rw [heq] at hlen
      simp at hlen
    next => rfl
  | cons x xs ih =>
    intro ys bad content hlen
    simp only [List.cons_append]
    rw [dirFold, dirFold]
    split
    next e0 e1 e2 e3 heq => exact ih ys bad _ hlen
    next => exact ih ys bad content hlen

/-- C7: the concrete body of the specification parses into exactly the
two objects, skipping the bad line, and in general any line with a
field count other than four is silently skipped by the fold. -/
theorem dir_listing_parses :
    getDirContentRun
        ("f\t10\t2024-01-01\ta.lua\nbadline\nd\t0\t2024-01-01\tsub".toList) =
      ("[\x7b\"type\": \"f\",\"size\": \"10\",\"date\": \"2024-01-01\",\"name\": \"a.lua\"\x7d,\x7b\"type\": \"d\",\"size\": \"0\",\"date\": \"2024-01-01\",\"name\": \"sub\"\x7d]").toList ∧
    ∀ (xs ys : List (List Char)) (bad content : List Char),
      (splitOnChar '\t' (bad.filter (fun c => c ≠ '\r'))).length ≠ 4 →
      dirFold (xs ++ bad :: ys) content = dirFold (xs ++ ys) content := by
  constructor
  · decide
  · exact dirFold_skips_bad_line

/-- C7 witness: a one-field line is skipped by the fold. -/
theorem dir_listing_parses_witness :
    (splitOnChar '\t' (("q".toList).filter (fun c => c ≠ '\r'))).length ≠ 4 ∧
    dirFold ([] ++ "q".toList :: []) [] = dirFold ([] ++ []) [] :=
  ⟨by decide, dir_listing_parses.2 [] [] "q".toList [] (by decide)⟩

/-- Helper: every terminating run of reset carries a true result. -/
theorem resetModel_result_true (probe : List String)
    (prereq : Option (List Nat)) (wfLines infoLines : List String)
    (b : Bool) (info : String)
    (h : resetModel probe prereq wfLines infoLines = some (b, info)) :
    b = true := by
  simp only [resetModel] at h
  split at h
  · exact absurd h (by simp)
  · split at h
    · exact absurd h (by simp)
    · split at h
      · exact absurd h (by simp)
      · split at h
        · exact absurd h (by simp)
        · simp only [Option.some.injEq, Prod.mk.injEq] at h
          exact h.1.symm

/-- C9: reset has no failure path: every terminating run returns true;
attach fails exactly when the transport fails to open, leaving the
active board unchanged and emitting nothing; and whenever the
transport opens and reset terminates, the board is installed as the
active board and the attached event is emitted. -/
theorem reset_no_failure_path (probe : List String)
    (prereq : Option (List Nat)) (wfLines infoLines : List String)
    (prev : Option String) :
    (∀ b info, resetModel probe prereq wfLines infoLines = some (b, info) →
      b = true) ∧
    attachModel false probe prereq wfLines infoLines prev =
      some (false, prev, []) ∧
    (∀ b info, resetModel probe prereq wfLines infoLines = some (b, info) →
      attachModel true probe prereq wfLines infoLines prev =
        some (true, some info, ["boardAttached"])) := by
  refine ⟨fun b info h => resetModel_result_true _ _ _ _ _ _ h, ?_, ?_⟩
  · simp [attachModel]
  · intro b info h
    have hb : b = true := resetModel_result_true _ _ _ _ _ _ h
    subst hb
    simp [attachModel, h]

/-- C9 witness: a device replying the running banner to both polls and
echoing the info command before a prompt completes reset with a true
result, and attach then installs the board and notifies. -/
theorem reset_no_failure_path_witness :
    resetModel [runningBanner, runningBanner] none []
        [getInfoCommand, "/ >"] = some (true, "") ∧
    attachModel true [runningBanner, runningBanner] none []
        [getInfoCommand, "/ >"] none =
      some (true, some "", ["boardAttached"]) :=
  ⟨by decide,
    (reset_no_failure_path [runningBanner, runningBanner] none []
        [getInfoCommand, "/ >"] none).2.2 true "" (by decide)⟩
